import Mathlib

/-!
Shallow embedding of the OpenClaw webchat BFF bridge
(`apps/api/src/rpc-client.ts`, `apps/api/src/gateway-rpc.ts`,
`apps/api/src/event-forwarder.ts`, `apps/api/src/session-manager.ts`,
`apps/api/src/routes/sessions.ts`) together with proofs about the
claims of the natural-language specification.

Conventions used throughout:
* JSON values carried through the bridge untouched are modelled by `Val`.
* A JavaScript field that may be absent is an `Option`; where the source
  treats `null` and `undefined` identically (for example `!!msg.error`
  and `msg.error ?? fallback`) the two are collapsed into `none`,
  otherwise `Val.null` keeps `null` distinct from an absent field.
* Machine timestamps are `Nat` milliseconds.
-/

namespace OpenClawBridge

/-- Model of an arbitrary JSON value (results, payloads, field values). -/
inductive Val where
  | null : Val
  | bool : Bool → Val
  | num : Int → Val
  | str : String → Val
  | arr : List Val → Val
  | obj : List (String × Val) → Val
deriving Repr

/-- Model of `String(code)` for an `error.code` that is `string | number`
(`rpc-client.ts`, `isAuthErrorCode`). -/
inductive ErrCode where
  | str : String → ErrCode
  | num : Int → ErrCode
deriving Repr, DecidableEq

/-- JavaScript string conversion of an error code. -/
def ErrCode.toJsString : ErrCode → String
  | .str s => s
  | .num n => toString n

/-- Model of the structured `error` object of a response frame
(`rpc-client.ts`, interface `RpcResponse`). -/
structure ErrObjM where
  code : ErrCode
  message : String
deriving Repr, DecidableEq

/-- Model of `isAuthErrorCode` (`rpc-client.ts` lines 120-123): the code,
converted to a string, is one of UNAUTHORIZED / 401 / 403 / FORBIDDEN. -/
def isAuthErrorCode (code : ErrCode) : Bool :=
  let s := code.toJsString
  s == "UNAUTHORIZED" || s == "401" || s == "403" || s == "FORBIDDEN"

/-- Error codes of the `GatewayError` class (`rpc-client.ts` lines 19-30). -/
inductive GatewayCode where
  | UNAUTHORIZED : GatewayCode
  | GATEWAY_CONNECT_FAILED : GatewayCode
  | GATEWAY_RPC_ERROR : GatewayCode
deriving Repr, DecidableEq

/-- Model of a thrown `GatewayError` (code plus the original error object,
when one was attached as `details`). -/
structure GatewayErrorM where
  code : GatewayCode
  details : Option ErrObjM
deriving Repr, DecidableEq

/-- Model of a parsed inbound WebSocket frame as the `message` handler of
`RpcClient._doConnect` sees it (`rpc-client.ts`, interface `RpcResponse`):
every field of the JSON object may be absent.  `error : null` behaves like
an absent `error` in the source (`!!msg.error`, `msg.error ?? fallback`),
so both are `none` here; `result : null` is distinct from an absent
`result` (`msg.result !== undefined`), so `result?` is an `Option Val`
with `Val.null` available. -/
structure FrameM where
  type? : Option String := none
  id? : Option String := none
  result? : Option Val := none
  ok? : Option Bool := none
  payload? : Option Val := none
  error? : Option ErrObjM := none
deriving Repr

/-- A response frame carries an error exactly when `!!msg.error || msg.ok
=== false` (`rpc-client.ts` lines 267 and 297). -/
def respHasError (m : FrameM) : Bool :=
  m.error?.isSome || m.ok? == some false

/-- Outcome delivered to the pending request matched by a response frame. -/
inductive ReqOutcome where
  | resolved : Option Val → ReqOutcome
  | rejected : GatewayErrorM → ReqOutcome
deriving Repr

/-- Model of the per-request response branch of the `message` handler
(`rpc-client.ts` lines 297-309): reject with a classified `GatewayError`
when the frame carries an error, otherwise resolve with
`msg.result !== undefined ? msg.result : msg.payload`. -/
def resHandler (m : FrameM) : ReqOutcome :=
  if respHasError m then
    let errorObj := m.error?.getD ⟨.str "RPC_ERROR", "RPC fallback"⟩
    if isAuthErrorCode errorObj.code then
      .rejected ⟨.UNAUTHORIZED, some errorObj⟩
    else
      .rejected ⟨.GATEWAY_RPC_ERROR, some errorObj⟩
  else
    .resolved (m.result? <|> m.payload?)

/-- Observable action taken by the `message` handler on one inbound frame. -/
inductive MsgAction where
  | dispatchedEvent : MsgAction
  | ignored : MsgAction
  | connectSettled : Bool → MsgAction
  | settled : String → ReqOutcome → MsgAction
deriving Repr

/-- JavaScript truthiness of an optional id string: `!msg.id` is `true`
exactly when the field is absent or the empty string. -/
def jsTruthyId : Option String → Option String
  | none => none
  | some s => if s = "" then none else some s

/-- A frame `type` that is present and differs from `"res"` makes the
handler return early (`rpc-client.ts` line 261); the `"event"` case has
already been peeled off at line 253 before this test runs. -/
def typeBlocksRes (t? : Option String) : Bool :=
  match t? with
  | none => false
  | some t => t != "res"

/-- Model of the routing done by the `message` handler of
`RpcClient._doConnect` (`rpc-client.ts` lines 243-310) on one parsed
frame, given the current in-flight connect id and the ids of the pending
requests: `type === 'event'` frames are dispatched, frames whose `type`
is present but not `'res'` are dropped, frames with a falsy id are
dropped, the in-flight connect response is settled, and any other frame
with a pending id settles that request via `resHandler` and removes the
pending entry; everything else is ignored. -/
def handleMessage (connectId? : Option String) (pending : List String) (m : FrameM) :
    MsgAction × List String :=
  if m.type? == some "event" then (.dispatchedEvent, pending)
  else if typeBlocksRes m.type? then (.ignored, pending)
  else
    match jsTruthyId m.id? with
    | none => (.ignored, pending)
    | some id =>
      if jsTruthyId connectId? == some id then (.connectSettled (!respHasError m), pending)
      else if pending.contains id then (.settled id (resHandler m), pending.erase id)
      else (.ignored, pending)

/-- Concrete frame refuting C3: its `type` is present (`"push"`) and is
neither `res` nor `event`, and its id matches a pending request. -/
def c3Frame : FrameM :=
  { type? := some "push", id? := some "req_1", result? := some (Val.str "x") }

/-- Model of one registered event callback.  For the dispatch claims the
observable behaviour of a callback is its identity (so invocation can be
recorded) and whether it throws when invoked. -/
structure CbM where
  cbId : Nat
  throws : Bool
deriving Repr, DecidableEq

/-- Run a list of callbacks the way a bare `for (const cb of set) cb(event)`
loop does (`rpc-client.ts` lines 498 and 503, no try/catch): returns the
ids actually invoked, in order, and whether an exception escaped.  A
throwing callback is invoked, then aborts the loop. -/
def runCbs : List CbM → List Nat × Bool
  | [] => ([], false)
  | c :: rest =>
    if c.throws then ([c.cbId], true)
    else
      let r := runCbs rest
      (c.cbId :: r.1, r.2)

/-- Model of the listener table `eventListeners` restricted to one event
frame: the callbacks registered under the computed event name, in
registration order (JavaScript `Set` iterates in insertion order), and
the callbacks registered under `"*"`. -/
structure ListenersM where
  specific : List CbM
  wildcard : List CbM
deriving Repr, DecidableEq

/-- Model of `RpcClient._dispatchEvent` (`rpc-client.ts` lines 492-505):
run every callback registered under the event name, then every callback
registered under `"*"`; there is no exception isolation, so a throw in
the first loop skips the second loop entirely. -/
def dispatchEvent (l : ListenersM) : List Nat × Bool :=
  let r1 := runCbs l.specific
  if r1.2 then r1
  else
    let r2 := runCbs l.wildcard
    (r1.1 ++ r2.1, r2.2)

/-- Callbacks up to and including the first throwing one: the ones a bare
sequential loop actually invokes. -/
def takeThroughThrow : List CbM → List CbM
  | [] => []
  | c :: rest => if c.throws then [c] else c :: takeThroughThrow rest

/-- Outcome of one connect handshake as seen by `_doConnect`. -/
inductive HsOutcome where
  | success : HsOutcome
  | failAuth : HsOutcome
  | failOther : HsOutcome
deriving Repr, DecidableEq

/-- Lifecycle-relevant fields of an `RpcClient` instance
(`rpc-client.ts` lines 139-148): `_isConnected`, `_closed` and
`reconnectAttempts`. -/
structure RpcClientStM where
  isConnected : Bool
  closed : Bool
  reconnectAttempts : Nat
deriving Repr, DecidableEq

/-- A freshly constructed `RpcClient` (field initialisers,
`rpc-client.ts` lines 143-147). -/
def initClient : RpcClientStM := ⟨false, false, 0⟩

/-- Model of `close()` (`rpc-client.ts` lines 448-460): sets `_closed`;
`_isConnected` is only cleared later by the WS `close` event handler. -/
def closeCall (s : RpcClientStM) : RpcClientStM := { s with closed := true }

/-- Model of `connect()` followed by the settling of `_doConnect`
(`rpc-client.ts` lines 176-222): an already-connected client returns
immediately; otherwise a previously closed client first clears `_closed`
and resets the retry counter — the source comment reads "允許在 close()
後重新呼叫 connect()" (allow calling connect() again after close()) —
and then a successful handshake marks the client connected. -/
def connectCall (s : RpcClientStM) (o : HsOutcome) : RpcClientStM :=
  if s.isConnected then s
  else
    let s1 :=
      if s.closed then { s with closed := false, reconnectAttempts := 0 } else s
    match o with
    | .success => { s1 with isConnected := true, reconnectAttempts := 0 }
    | _ => s1

/-- Model of the WS `close` event handler (`rpc-client.ts` lines
336-374) restricted to lifecycle state: clears `_isConnected`, and when
the client was not explicitly closed, the close code is not an auth code
(4001/4003), and retries remain, increments the attempt counter and
schedules an automatic `_doConnect` (the returned flag). -/
def wsCloseEvent (s : RpcClientStM) (authCode : Bool) (maxRetries : Nat) :
    RpcClientStM × Bool :=
  let s1 := { s with isConnected := false }
  if !s1.closed && !authCode && decide (s1.reconnectAttempts < maxRetries) then
    ({ s1 with reconnectAttempts := s1.reconnectAttempts + 1 }, true)
  else (s1, false)

/-- Model of one raw upstream session entry as a JSON object carrying the
fields `SessionManager.normalizeSessions` reads (`session-manager.ts`
lines 46-64); each field may be absent. -/
structure RawSession where
  sessionKey? : Option Val := none
  key? : Option Val := none
  title? : Option Val := none
  label? : Option Val := none
  createdAt? : Option Val := none
  updatedAt? : Option Val := none
deriving Repr

/-- JavaScript nullish coalescing `a ?? b` on optional field values:
`null` and an absent field both fall through to `b`. -/
def jsCoalesce (a b : Option Val) : Option Val :=
  match a with
  | none => b
  | some .null => b
  | some v => some v

/-- The guard `if (!sessionKey || typeof sessionKey !== 'string') return
null` (`session-manager.ts` line 48) keeps exactly the non-empty-string
keys: non-strings fail the typeof test, the empty string is falsy. -/
def usableKey : Option Val → Option String
  | some (.str s) => if s = "" then none else some s
  | _ => none

/-- A `typeof x === 'string'` field read: the string when the field holds
one, nothing otherwise. -/
def strField : Option Val → Option String
  | some (.str s) => some s
  | _ => none

/-- A field that is missing or does not hold a string (the wording of
claim C10). -/
def badKeyField : Option Val → Bool
  | some (.str _) => false
  | _ => true

/-- Normalized session produced by `SessionManager.normalizeSessions`. -/
structure NormSession where
  sessionKey : String
  title : Option String
  createdAt : String
  updatedAt : String
deriving Repr, DecidableEq

/-- Model of the body of the `.map` in `SessionManager.normalizeSessions`
(`session-manager.ts` lines 46-65) on one entry: `null` when the
coalesced `sessionKey ?? key` is not a usable key, otherwise the
normalized object; `nowIso` stands for `new Date().toISOString()`. -/
def normalizeSession (nowIso : String) (s : RawSession) : Option NormSession :=
  match usableKey (jsCoalesce s.sessionKey? s.key?) with
  | none => none
  | some k =>
    some
      { sessionKey := k
        title := (strField s.title?) <|> (strField s.label?)
        createdAt := ((strField s.createdAt?) <|> (strField s.updatedAt?)).getD nowIso
        updatedAt := ((strField s.updatedAt?) <|> (strField s.createdAt?)).getD nowIso }

/-- Model of `SessionManager.normalizeSessions` on an upstream session
array (the `[...]` / `{ sessions: [...] }` unwrapping of lines 39-43 has
already produced the entry list): `.map(...).filter(Boolean)` is a
`filterMap`. -/
def normalizeSessions (nowIso : String) (raw : List RawSession) : List NormSession :=
  raw.filterMap (normalizeSession nowIso)

/-- JavaScript `Set.add`: keeps insertion order, ignores duplicates. -/
def setAdd (l : List String) (k : String) : List String :=
  if k ∈ l then l else l ++ [k]

/-- JavaScript `Set.delete`. -/
def setDelete (l : List String) (k : String) : List String := l.erase k

/-- JavaScript `Set.has`. -/
def setHas (l : List String) (k : String) : Bool := l.contains k

/-- Model of `SessionManager.list` (`session-manager.ts` lines 156-164)
after the upstream RPC returned `raw`: normalize, then overlay the
in-memory archived flag via `archived.has(s.sessionKey)`. -/
def listWithFlags (nowIso : String) (raw : List RawSession) (arch : List String) :
    List (NormSession × Bool) :=
  (normalizeSessions nowIso raw).map fun s => (s, setHas arch s.sessionKey)

/-- Per-token state of the `SessionManager` caches: the keys of the local
session cache `cache` and the members of the archive set `archiveSet`
(`session-manager.ts` lines 100-104). -/
structure SmTokenState where
  cacheKeys : List String
  archiveKeys : List String
deriving Repr, DecidableEq

/-- The `SessionManager` operations that touch the per-token caches
(`session-manager.ts`): `create` inserts into the cache (line 183),
`archive` adds the key to the archive set unconditionally (line 309),
`unarchive` removes it (line 318), `close` clears both (lines 328-329),
`delete` clears only the cache entry (line 269), `rename` updates only
the title of an existing cache entry (lines 295-298). -/
inductive SmOp where
  | createOp : String → SmOp
  | archiveOp : String → SmOp
  | unarchiveOp : String → SmOp
  | closeOp : String → SmOp
  | deleteOp : String → SmOp
  | renameOp : String → SmOp
deriving Repr, DecidableEq

/-- Effect of one `SessionManager` operation on the per-token caches. -/
def applySmOp (st : SmTokenState) : SmOp → SmTokenState
  | .createOp k => { st with cacheKeys := setAdd st.cacheKeys k }
  | .archiveOp k => { st with archiveKeys := setAdd st.archiveKeys k }
  | .unarchiveOp k => { st with archiveKeys := setDelete st.archiveKeys k }
  | .closeOp k =>
    { cacheKeys := setDelete st.cacheKeys k, archiveKeys := setDelete st.archiveKeys k }
  | .deleteOp k => { st with cacheKeys := setDelete st.cacheKeys k }
  | .renameOp _ => st

/-- Empty per-token caches of a fresh process. -/
def initSm : SmTokenState := ⟨[], []⟩

/-- Per-token cache state after a sequence of operations. -/
def runSm (ops : List SmOp) : SmTokenState := ops.foldl applySmOp initSm

/-- Keys that some `archive` call in the operation sequence recorded. -/
def archivedRequested : List SmOp → List String
  | [] => []
  | .archiveOp k :: rest => k :: archivedRequested rest
  | _ :: rest => archivedRequested rest

/-- Pool entry of `GatewayRpcClientManager` for one token (part_002,
interface `PoolEntry`): the client (identified by a serial number and
its connection flag) and the creation timestamp used for the TTL test. -/
structure PoolEntryM where
  clientId : Nat
  createdAt : Nat
  connected : Bool
deriving Repr, DecidableEq

/-- Connection TTL of the pool, 5 minutes in milliseconds (part_002,
`CONNECTION_TTL_MS`). -/
def CONNECTION_TTL_MS : Nat := 5 * 60 * 1000

/-- State of the pool for one fixed token, instrumented with the number
of clients built so far (also the next fresh client id) and the number
of connect handshakes sent. -/
structure BridgeSt where
  entry? : Option PoolEntryM
  nextClientId : Nat
  handshakes : Nat
deriving Repr, DecidableEq

/-- Building a fresh client and awaiting its handshake (part_002 lines
337-351): one client is constructed, one connect request goes out; on
success the entry is stored and the client returned, on failure the
`connectPromise.catch` deletes the entry and the error propagates. -/
def rebuildConn (now : Nat) (hs : Except GatewayErrorM Unit) (st : BridgeSt) :
    Except GatewayErrorM Nat × BridgeSt :=
  let cid := st.nextClientId
  match hs with
  | .ok _ =>
    (.ok cid,
      { entry? := some ⟨cid, now, true⟩, nextClientId := cid + 1,
        handshakes := st.handshakes + 1 })
  | .error e =>
    (.error e,
      { entry? := none, nextClientId := cid + 1, handshakes := st.handshakes + 1 })

/-- Model of `GatewayRpcClientManager.getConnection` (part_002 lines
320-352) for one token at instant `now`: a fresh, still-connected entry
is returned as is (no new client, no new handshake); a stale or
disconnected entry is closed, removed and rebuilt; an absent entry is
built.  `hs` is the outcome a new connect handshake would have, unused
when the pooled entry is reused. -/
def getConnection (now : Nat) (hs : Except GatewayErrorM Unit) (st : BridgeSt) :
    Except GatewayErrorM Nat × BridgeSt :=
  match st.entry? with
  | some e =>
    if now - e.createdAt < CONNECTION_TTL_MS then
      if e.connected then (.ok e.clientId, st)
      else rebuildConn now hs { st with entry? := none }
    else rebuildConn now hs { st with entry? := none }
  | none => rebuildConn now hs st

/-- Model of `handleGatewayError` (routes/sessions.ts lines 9-22): map a
`GatewayError` to the HTTP status and body code. -/
def handleGatewayError (e : GatewayErrorM) : Nat × String :=
  match e.code with
  | .UNAUTHORIZED => (401, "UNAUTHORIZED")
  | .GATEWAY_CONNECT_FAILED => (502, "GATEWAY_CONNECT_FAILED")
  | .GATEWAY_RPC_ERROR => (502, "GATEWAY_RPC_ERROR")

/-- Reply of one authenticated JSON endpoint. -/
inductive HttpOutcome where
  | okReply : Option Val → HttpOutcome
  | errReply : Nat → String → HttpOutcome
deriving Repr

/-- Model of one authenticated endpoint serving one request whose
upstream RPC response frame is `m`: obtain the pooled connection
(`gatewayRpc.request`, part_002 lines 361-364), settle the request from
the response frame (`resHandler`, rpc-client.ts lines 292-309), and map
a thrown `GatewayError` through `handleGatewayError` (routes/sessions.ts).
Nothing on the per-request path touches the pool: only `getConnection`
itself changes the state. -/
def endpointRequest (now : Nat) (hs : Except GatewayErrorM Unit) (st : BridgeSt)
    (m : FrameM) : HttpOutcome × BridgeSt :=
  match getConnection now hs st with
  | (.error e, st1) => (.errReply (handleGatewayError e).1 (handleGatewayError e).2, st1)
  | (.ok _, st1) =>
    match resHandler m with
    | .resolved v => (.okReply v, st1)
    | .rejected e => (.errReply (handleGatewayError e).1 (handleGatewayError e).2, st1)

/-- State of one caller of `getConnection(T)` in the concurrency model:
not yet entered, awaiting the shared `connectPromise` of the client with
the given id, or resolved with that client. -/
inductive CallerSt where
  | start : CallerSt
  | waiting : Nat → CallerSt
  | resolved : Nat → CallerSt
deriving Repr, DecidableEq

/-- Global state of N concurrent `getConnection(T)` calls on one token:
the pool slot for T, the number of clients created (and connect requests
sent — `_doConnect` sends exactly one connect request per built client),
whether the shared handshake has completed, and the callers. -/
structure ConcSt where
  pool : Option Nat
  created : Nat
  hsDone : Bool
  callers : List CallerSt
deriving Repr, DecidableEq

/-- Interleaving semantics of `getConnection` (part_002 lines 320-352)
under the JavaScript event loop: the segment from reading `pool.get`
to `pool.set` contains no `await`, so it is one atomic step; a caller
that finds an entry goes to await the shared `connectPromise`; the
handshake completes at some point; a waiting caller whose promise is
settled resolves with the pooled client.  Only the success path of the
claim scenario (no prior entry, handshake succeeds, TTL not reached) is
modelled. -/
inductive ConcStep : ConcSt → ConcSt → Prop where
  | joinEntry (s : ConcSt) (i : Nat) (c : Nat)
      (hi : s.callers.get? i = some .start) (hp : s.pool = some c) :
      ConcStep s { s with callers := s.callers.set i (.waiting c) }
  | createEntry (s : ConcSt) (i : Nat)
      (hi : s.callers.get? i = some .start) (hp : s.pool = none) :
      ConcStep s
        { s with pool := some s.created, created := s.created + 1,
                 callers := s.callers.set i (.waiting s.created) }
  | handshakeDone (s : ConcSt) (h : s.hsDone = false) :
      ConcStep s { s with hsDone := true }
  | finishCaller (s : ConcSt) (i : Nat) (c : Nat)
      (hi : s.callers.get? i = some (.waiting c)) (hd : s.hsDone = true) :
      ConcStep s { s with callers := s.callers.set i (.resolved c) }

/-- Initial state of the C6 scenario: empty pool, `n` callers about to
invoke `getConnection(T)`. -/
def initConc (n : Nat) : ConcSt := ⟨none, 0, false, List.replicate n .start⟩

/-- Invariant of the concurrency model: the caller count is fixed, at
most one client ever gets created (the pool slot holds client 0 as soon
as anything was created), and every waiting or resolved caller holds
exactly the pooled client. -/
def ConcInv (n : Nat) (s : ConcSt) : Prop :=
  s.callers.length = n
  ∧ (s.pool = none → s.created = 0)
  ∧ (∀ c, s.pool = some c → c = 0 ∧ s.created = 1)
  ∧ (∀ st ∈ s.callers, ∀ c, (st = .waiting c ∨ st = .resolved c) → s.pool = some c)

/-- JavaScript `String(x)` conversion, used for `String(data.delta)`
(part_002 line 422): primitives print their usual text, arrays join
their elements with commas (`null` printing empty inside an array),
plain objects print "[object Object]". -/
def jsString : Val → String
  | .null => "null"
  | .bool b => if b then "true" else "false"
  | .num n => toString n
  | .str s => s
  | .arr xs => jsStringArr xs
  | .obj _ => "[object Object]"
where
  jsStringArr : List Val → String
    | [] => ""
    | [.null] => ""
    | [v] => jsString v
    | .null :: rest => "," ++ jsStringArr rest
    | v :: rest => jsString v ++ "," ++ jsStringArr rest

/-- Payload of a push event frame, restricted to the fields the
streaming handler reads (part_002 lines 408-443): `payload.sessionKey`,
`payload.stream`, `payload.data.delta`, `payload.data.phase`,
`payload.state`, `payload.message`.  A field whose runtime value is not
a string where the handler compares against a string literal behaves
exactly like an absent one (strict equality fails), so those fields are
modelled as `Option String`. -/
structure PayloadM where
  sessionKey? : Option Val := none
  stream? : Option String := none
  dataDelta? : Option Val := none
  dataPhase? : Option String := none
  state? : Option String := none
  message? : Option Val := none
deriving Repr

/-- Push event frame for the streaming path: `event`/`payload` with the
legacy aliases `name`/`data` (part_002 lines 409-410). -/
structure EvFrameM where
  event? : Option String := none
  name? : Option String := none
  payload? : Option PayloadM := none
  data? : Option PayloadM := none
deriving Repr

/-- The things that can happen to a `sendStream` run while its event
subscription is active: an event frame is dispatched to the `'*'`
callback, the background `chat.send` promise resolves with a result, or
it rejects. -/
inductive StreamAct where
  | frame : EvFrameM → StreamAct
  | rpcOk : Val → StreamAct
  | rpcErr : StreamAct

/-- Provenance of the data carried by a `done` stream event:
`payload.message`, the whole payload (when `message` is nullish), or the
RPC result. -/
inductive DoneSrc where
  | fromMessage : Val → DoneSrc
  | fromPayload : PayloadM → DoneSrc
  | fromRpc : Val → DoneSrc

/-- Events of the `GatewayStreamEvent` union pushed into the buffer
(part_002 lines 276-278); the `raw` diagnostic field is omitted. -/
inductive StreamEv where
  | chunk : String → StreamEv
  | doneEv : DoneSrc → StreamEv

/-- Mutable state shared between the `'*'` callback, the RPC
continuations and the generator loop of `sendStream` (part_002 lines
392-395): the chunk buffer, the `done` flag and the `error` flag. -/
structure StreamSt where
  buffer : List StreamEv
  done : Bool
  errored : Bool

/-- The payload object the handler works with: `event.payload ??
event.data ?? {}` (part_002 line 410). -/
def framePayload (ev : EvFrameM) : PayloadM := (ev.payload? <|> ev.data?).getD {}

/-- The computed event name: `event.event ?? event.name ?? ''`
(part_002 line 409). -/
def frameName (ev : EvFrameM) : String := (ev.event? <|> ev.name?).getD ""

/-- Strict JavaScript equality between a payload value and the target
session-key string. -/
def valEqStr (v : Val) (t : String) : Bool :=
  match v with
  | .str s => s == t
  | _ => false

/-- The session filter `payload.sessionKey !== undefined &&
payload.sessionKey !== sessionKey` (part_002 line 413): the frame is
skipped when it names a different session. -/
def frameSkipped (target : String) (ev : EvFrameM) : Bool :=
  match (framePayload ev).sessionKey? with
  | some v => !valEqStr v target
  | none => false

/-- The data attached to a final `done` event: `payload.message ??
payload` (part_002 line 436). -/
def doneData (p : PayloadM) : DoneSrc :=
  match p.message? with
  | some .null => .fromPayload p
  | some v => .fromMessage v
  | none => .fromPayload p

/-- One action processed against the shared `sendStream` state
(part_002 lines 408-469): a matching `agent`/`assistant` frame with a
defined delta pushes a chunk; a matching `chat`/`final` frame pushes a
`done` event unconditionally and sets the flag; the RPC result pushes a
synthesized `done` only when the flag is still unset; an RPC rejection
just sets the flags. -/
def stepStream (target : String) (st : StreamSt) : StreamAct → StreamSt
  | .frame ev =>
    if frameSkipped target ev then st
    else
      let payload := framePayload ev
      let nm := frameName ev
      if nm = "agent" then
        if payload.stream? == some "assistant" && payload.dataDelta?.isSome then
          { st with buffer :=
              st.buffer ++ [.chunk (jsString (payload.dataDelta?.getD .null))] }
        else st
      else if nm = "chat" then
        if payload.state? == some "final" then
          { st with buffer := st.buffer ++ [.doneEv (doneData payload)], done := true }
        else st
      else st
  | .rpcOk v =>
    if st.done then st
    else { st with buffer := st.buffer ++ [.doneEv (.fromRpc v)], done := true }
  | .rpcErr => { st with done := true, errored := true }

/-- Shared state after a `sendStream` run processed the given actions;
the generator loop drains the buffer in push order, so with a consumer
that finishes draining after the producers the yielded sequence is
exactly the final buffer. -/
def runStream (target : String) (acts : List StreamAct) : StreamSt :=
  acts.foldl (stepStream target) ⟨[], false, false⟩

/-- Number of `done` events in an emitted sequence. -/
def countDone (evs : List StreamEv) : Nat :=
  evs.countP fun e =>
    match e with
    | .doneEv _ => true
    | _ => false

/-- Whether the frame takes the `chat`/`final` branch for this target
session (the branch that marks the stream done). -/
def isFinalFor (target : String) (ev : EvFrameM) : Bool :=
  !frameSkipped target ev && frameName ev == "chat"
    && (framePayload ev).state? == some "final"

/-- Whether an action sets the `done` flag of the run when processed
(final frames and both RPC completions do). -/
def actCompletes (target : String) : StreamAct → Bool
  | .frame ev => isFinalFor target ev
  | .rpcOk _ => true
  | .rpcErr => true

/-- Number of matching final frames among the actions. -/
def countFinal (target : String) (acts : List StreamAct) : Nat :=
  acts.countP fun a =>
    match a with
    | .frame ev => isFinalFor target ev
    | _ => false

/-- Whether some action of the list is a matching final frame. -/
def containsFinal (target : String) (acts : List StreamAct) : Bool :=
  acts.any fun a =>
    match a with
    | .frame ev => isFinalFor target ev
    | _ => false

/-- Number of `done` events the RPC completions will contribute to a run
whose `done` flag starts at the given value: an `rpcOk` contributes one
exactly when the flag is still unset when it is processed. -/
def rpcDoneContrib (target : String) (done : Bool) : List StreamAct → Nat
  | [] => 0
  | .frame ev :: rest => rpcDoneContrib target (done || isFinalFor target ev) rest
  | .rpcOk _ :: rest => (if done then 0 else 1) + rpcDoneContrib target true rest
  | .rpcErr :: rest => rpcDoneContrib target true rest

/-- Concrete matching final frame for the C8 theorems. -/
def finalFrame : EvFrameM :=
  { event? := some "chat",
    payload? := some { sessionKey? := some (.str "s1"), state? := some "final",
                       message? := some (.str "hello") } }

end OpenClawBridge

namespace OpenClawBridge

/-- C7: a response frame matched to a pending request succeeds if and
only if its `error` field is null/absent and its `ok` field is not
`false`; on success the request resolves with `result` if present,
otherwise with `payload`; otherwise it rejects with a structured
`GatewayError` (code `UNAUTHORIZED` or `GATEWAY_RPC_ERROR`, carrying the
error object). -/
theorem res_success_iff (m : FrameM) :
    ((∃ v, resHandler m = .resolved v) ↔ (m.error? = none ∧ m.ok? ≠ some false))
    ∧ (m.error? = none → m.ok? ≠ some false →
        resHandler m = .resolved (m.result? <|> m.payload?))
    ∧ ((m.error? ≠ none ∨ m.ok? = some false) →
        ∃ e, resHandler m = .rejected e ∧
          (e.code = .UNAUTHORIZED ∨ e.code = .GATEWAY_RPC_ERROR)) := by
  have hcases : respHasError m = true ∨ respHasError m = false := by
    cases respHasError m <;> simp
  rcases hcases with h | h
  · have hdisj : m.error? ≠ none ∨ m.ok? = some false := by
      simp only [respHasError, Bool.or_eq_true, Option.isSome_iff_ne_none, beq_iff_eq] at h
      exact h
    refine ⟨?_, ?_, ?_⟩
    · constructor
      · rintro ⟨v, hv⟩
        simp only [resHandler, h, if_true] at hv
        split at hv <;> exact absurd hv (by simp)
      · rintro ⟨he, hok⟩
        rcases hdisj with hd | hd
        · exact absurd he hd
        · exact absurd hd hok
    · intro he hok
      rcases hdisj with hd | hd
      · exact absurd he hd
      · exact absurd hd hok
    · intro _
      simp only [resHandler, h, if_true]
      split
      · exact ⟨_, rfl, Or.inl rfl⟩
      · exact ⟨_, rfl, Or.inr rfl⟩
  · have hconj : m.error? = none ∧ m.ok? ≠ some false := by
      constructor
      · rcases hE : m.error? with _ | e
        · rfl
        · simp [respHasError, hE] at h
      · intro hk
        simp [respHasError, hk] at h
    refine ⟨?_, ?_, ?_⟩
    · simp only [resHandler, h, if_false, Bool.false_eq_true, reduceIte]
      exact ⟨fun _ => hconj, fun _ => ⟨_, rfl⟩⟩
    · intro _ _
      simp [resHandler, h]
    · intro hd
      rcases hd with hd | hd
      · exact absurd hconj.1 hd
      · exact absurd hd hconj.2

/-- Witness for C7: a concrete successful frame resolves with its
`result` field, through `res_success_iff`. -/
theorem res_success_iff_witness :
    resHandler { result? := some (Val.str "hi"), payload? := some Val.null } =
      .resolved (some (Val.str "hi")) :=
  (res_success_iff { result? := some (Val.str "hi"), payload? := some Val.null }).2.1
    rfl (by simp)

/-- Counterexample to C3: a frame whose `type` is a value other than
`res`/`event` is ignored by the handler even though its id matches a
pending request — it is not treated as a `res` frame, the pending entry
stays. -/
theorem c3_other_type_not_treated_as_res :
    handleMessage none ["req_1"] c3Frame = (.ignored, ["req_1"])
    ∧ ∀ o p, handleMessage none ["req_1"] c3Frame ≠ (.settled "req_1" o, p) := by
  refine ⟨rfl, ?_⟩
  intro o p h
  rw [show handleMessage none ["req_1"] c3Frame = (.ignored, ["req_1"]) from rfl] at h
  simp at h

/-- C3 as amended: a frame whose `type` is absent and whose (truthy) id
matches a pending request (and is not the in-flight connect id) is
treated as a `res` frame — the pending entry is settled via `resHandler`
and removed; a frame whose `type` is present but neither `res` nor
`event` is ignored no matter its id; a `res`/absent-type frame whose id
matches no pending request is silently ignored. -/
theorem handleMessage_routing (cid? : Option String) (pending : List String) (m : FrameM) :
    (∀ id, m.type? = none → m.id? = some id → id ≠ "" →
        jsTruthyId cid? ≠ some id → pending.contains id = true →
        handleMessage cid? pending m = (.settled id (resHandler m), pending.erase id))
    ∧ (∀ t, m.type? = some t → t ≠ "res" → t ≠ "event" →
        handleMessage cid? pending m = (.ignored, pending))
    ∧ (∀ id, (m.type? = none ∨ m.type? = some "res") → m.id? = some id → id ≠ "" →
        jsTruthyId cid? ≠ some id → pending.contains id = false →
        handleMessage cid? pending m = (.ignored, pending)) := by
  refine ⟨?_, ?_, ?_⟩
  · intro id htype hid hne hcid hpend
    have hjs : jsTruthyId (some id) = some id := by simp [jsTruthyId, hne]
    have hmem : id ∈ pending := by simpa using hpend
    simp [handleMessage, htype, typeBlocksRes, hid, hjs, hcid, hmem]
  · intro t htype hres hevent
    simp [handleMessage, htype, typeBlocksRes, hres, hevent]
  · intro id htype hid hne hcid hpend
    have hjs : jsTruthyId (some id) = some id := by simp [jsTruthyId, hne]
    have hmem : id ∉ pending := by simpa using hpend
    rcases htype with htype | htype <;>
      simp [handleMessage, htype, typeBlocksRes, hid, hjs, hcid, hmem]

/-- Witness for the amended C3: a concrete absent-type frame with a
pending id is settled as a response, through `handleMessage_routing`. -/
theorem handleMessage_routing_witness :
    handleMessage none ["req_9"] { id? := some "req_9", payload? := some (Val.num 7) } =
      (.settled "req_9" (resHandler { id? := some "req_9", payload? := some (Val.num 7) }),
        []) :=
  (handleMessage_routing none ["req_9"]
    { id? := some "req_9", payload? := some (Val.num 7) }).1
    "req_9" rfl rfl (by simp) (by simp [jsTruthyId]) (by simp)

lemma runCbs_eq (cs : List CbM) :
    runCbs cs = ((takeThroughThrow cs).map CbM.cbId, cs.any CbM.throws) := by
  induction cs with
  | nil => rfl
  | cons c rest ih =>
    by_cases hc : c.throws
    · simp [runCbs, takeThroughThrow, hc]
    · simp only [Bool.not_eq_true] at hc
      simp [runCbs, takeThroughThrow, hc, ih]

lemma takeThroughThrow_append_of_none {a : List CbM} (b : List CbM)
    (h : a.any CbM.throws = false) :
    takeThroughThrow (a ++ b) = a ++ takeThroughThrow b := by
  induction a with
  | nil => rfl
  | cons c rest ih =>
    simp only [List.any_cons, Bool.or_eq_false_iff] at h
    simp [takeThroughThrow, h.1, ih h.2]

lemma takeThroughThrow_append_of_throw {a : List CbM} (b : List CbM)
    (h : a.any CbM.throws = true) :
    takeThroughThrow (a ++ b) = takeThroughThrow a := by
  induction a with
  | nil => simp at h
  | cons c rest ih =>
    by_cases hc : c.throws
    · simp [takeThroughThrow, hc]
    · simp only [Bool.not_eq_true] at hc
      simp only [List.any_cons, hc, Bool.false_or] at h
      simp [takeThroughThrow, hc, ih h]

lemma takeThroughThrow_of_no_throw {cs : List CbM}
    (h : ∀ c ∈ cs, c.throws = false) : takeThroughThrow cs = cs := by
  induction cs with
  | nil => rfl
  | cons c rest ih =>
    have hc := h c (List.mem_cons_self c rest)
    simp [takeThroughThrow, hc, ih fun d hd => h d (List.mem_cons_of_mem c hd)]

/-- Counterexample to C4: dispatching to the table that holds, under the
matched event name, callback 1 (which throws) registered before callback
2, invokes only callback 1; the exception escapes and callback 2 is
never invoked, so a throw in one callback is observable to the remaining
callbacks. -/
theorem c4_throw_reaches_other_callbacks :
    dispatchEvent ⟨[⟨1, true⟩, ⟨2, false⟩], []⟩ = ([1], true)
    ∧ 2 ∉ (dispatchEvent ⟨[⟨1, true⟩, ⟨2, false⟩], []⟩).1 := by
  exact ⟨rfl, by decide⟩

/-- C4 as amended: callbacks registered under the event name run first,
then the wildcard callbacks, each group in registration order, but with
no exception isolation: the invoked callbacks are exactly the ones up to
and including the first throwing callback, and the exception escapes the
dispatcher.  When no registered callback throws, every callback is
invoked, in order. -/
theorem dispatch_order_and_no_isolation (l : ListenersM) :
    dispatchEvent l
      = ((takeThroughThrow (l.specific ++ l.wildcard)).map CbM.cbId,
         (l.specific ++ l.wildcard).any CbM.throws)
    ∧ ((∀ c ∈ l.specific ++ l.wildcard, c.throws = false) →
        dispatchEvent l = ((l.specific ++ l.wildcard).map CbM.cbId, false)) := by
  have hmain : dispatchEvent l
      = ((takeThroughThrow (l.specific ++ l.wildcard)).map CbM.cbId,
         (l.specific ++ l.wildcard).any CbM.throws) := by
    by_cases hs : l.specific.any CbM.throws
    · simp [dispatchEvent, runCbs_eq, hs, takeThroughThrow_append_of_throw _ hs]
    · simp only [Bool.not_eq_true] at hs
      have hspec : takeThroughThrow l.specific = l.specific :=
        takeThroughThrow_of_no_throw (by
          intro c hc
          simpa using List.any_eq_false.mp hs c hc)
      simp [dispatchEvent, runCbs_eq, hs, takeThroughThrow_append_of_none _ hs, hspec]
  refine ⟨hmain, fun hno => ?_⟩
  rw [hmain, takeThroughThrow_of_no_throw hno]
  have hfalse : (l.specific ++ l.wildcard).any CbM.throws = false := by
    simp only [List.any_eq_false]
    intro c hc
    simp [hno c hc]
  rw [hfalse]

/-- Witness for the amended C4: a concrete throw-free table invokes both
the specific and the wildcard callback in order, through
`dispatch_order_and_no_isolation`. -/
theorem dispatch_order_witness :
    dispatchEvent ⟨[⟨5, false⟩], [⟨6, false⟩]⟩ = ([5, 6], false) :=
  (dispatch_order_and_no_isolation ⟨[⟨5, false⟩], [⟨6, false⟩]⟩).2 (by decide)

/-- Counterexample to C2: run a fresh client through connect-success,
`close()`, the resulting WS close event, and a second `connect()` whose
handshake succeeds: the same instance is connected again, so the Closed
state is not terminal. -/
theorem c2_connect_reopens_closed_instance :
    (closeCall (connectCall initClient .success)).closed = true
    ∧ (connectCall
        (wsCloseEvent (closeCall (connectCall initClient .success)) false 0).1
        .success).isConnected = true
    ∧ (connectCall
        (wsCloseEvent (closeCall (connectCall initClient .success)) false 0).1
        .success).closed = false := by
  decide

/-- C2 as amended: `close()` does set the closed flag, but Closed is not
terminal for the instance: a later `connect()` on a closed,
disconnected client clears the flag and a successful handshake returns
it to the connected state; moreover, after a non-auth connection loss
with retries remaining on a non-closed client, the client itself
schedules an automatic reconnect.  (Only the pool never reuses a closed
client — it builds a new instance.) -/
theorem close_not_terminal (s : RpcClientStM) :
    (closeCall s).closed = true
    ∧ (s.closed = true → s.isConnected = false →
        (connectCall s .success).isConnected = true
        ∧ (connectCall s .success).closed = false)
    ∧ (s.closed = false → ∀ m, s.reconnectAttempts < m →
        (wsCloseEvent s false m).2 = true) := by
  refine ⟨rfl, ?_, ?_⟩
  · intro hc hi
    simp [connectCall, hc, hi]
  · intro hc m hm
    simp [wsCloseEvent, hc, hm]

/-- Witness for the amended C2: a closed disconnected client reconnects
on `connect()`, and a live client schedules a reconnect on connection
loss, both through `close_not_terminal`. -/
theorem close_not_terminal_witness :
    ((connectCall ⟨false, true, 0⟩ .success).isConnected = true
      ∧ (connectCall ⟨false, true, 0⟩ .success).closed = false)
    ∧ (wsCloseEvent ⟨true, false, 0⟩ false 3).2 = true :=
  ⟨(close_not_terminal ⟨false, true, 0⟩).2.1 rfl rfl,
   (close_not_terminal ⟨true, false, 0⟩).2.2 rfl 3 (by decide)⟩

lemma usableKey_coalesce_none {a b : Option Val} (ha : badKeyField a = true)
    (hb : badKeyField b = true) : usableKey (jsCoalesce a b) = none := by
  cases a with
  | none =>
    cases b with
    | none => rfl
    | some v => cases v <;> first | rfl | simp [badKeyField] at hb
  | some v =>
    cases v with
    | null =>
      cases b with
      | none => rfl
      | some w => cases w <;> first | rfl | simp [badKeyField] at hb
    | str s => simp [badKeyField] at ha
    | _ => rfl

/-- C10: `normalizeSessions` drops every entry whose `sessionKey` and
`key` fields are each missing or not a string, the output is never
longer than the upstream array, and every surviving entry carries a
string `sessionKey` obtained from the coalesced key field of some
upstream entry. -/
theorem normalize_drops_keyless (nowIso : String) (raw : List RawSession) :
    (∀ s ∈ raw, badKeyField s.sessionKey? = true → badKeyField s.key? = true →
        normalizeSession nowIso s = none)
    ∧ (normalizeSessions nowIso raw).length ≤ raw.length
    ∧ (∀ t ∈ normalizeSessions nowIso raw, ∃ s ∈ raw,
        usableKey (jsCoalesce s.sessionKey? s.key?) = some t.sessionKey) := by
  refine ⟨?_, ?_, ?_⟩
  · intro s _ h1 h2
    simp [normalizeSession, usableKey_coalesce_none h1 h2]
  · exact List.length_filterMap_le _ _
  · intro t ht
    rcases List.mem_filterMap.mp ht with ⟨s, hs, hnorm⟩
    refine ⟨s, hs, ?_⟩
    unfold normalizeSession at hnorm
    rcases hu : usableKey (jsCoalesce s.sessionKey? s.key?) with _ | k
    · rw [hu] at hnorm; exact absurd hnorm (by simp)
    · rw [hu] at hnorm
      simp only [Option.some_inj] at hnorm
      rw [← hnorm]

/-- Witness for C10: on a concrete upstream array, the entry whose
`sessionKey` is a number and whose `key` is absent is dropped, through
`normalize_drops_keyless`. -/
theorem normalize_drops_keyless_witness :
    normalizeSession "2026-01-01" { sessionKey? := some (Val.num 7) } = none :=
  (normalize_drops_keyless "2026-01-01" [{ sessionKey? := some (Val.num 7) }]).1
    { sessionKey? := some (Val.num 7) } (by simp) rfl rfl

/-- Concrete upstream array for the C9 counterexample: one session with
key `k1`. -/
def rawC9 : List RawSession := [{ sessionKey? := some (Val.str "k1") }]

/-- Counterexample to C9: starting from an archive state in which `k1`
is already archived, `archive(T,k1)` then `unarchive(T,k1)` leaves `k1`
unarchived, so `list(T)` does not return to its original archived
flags. -/
theorem c9_round_trip_not_identity_when_archived :
    listWithFlags "2026-01-01" rawC9 (setDelete (setAdd ["k1"] "k1") "k1")
      ≠ listWithFlags "2026-01-01" rawC9 ["k1"] := by
  decide

/-- C9 as amended: provided `K` was not archived initially (and the
upstream list is unchanged), `archive(T,K)` followed by `unarchive(T,K)`
restores the archive set itself, and hence `list(T)` reports the
original archived flags. -/
theorem archive_unarchive_round_trip (nowIso : String) (raw : List RawSession)
    (arch : List String) (k : String) (h : k ∉ arch) :
    setDelete (setAdd arch k) k = arch
    ∧ listWithFlags nowIso raw (setDelete (setAdd arch k) k) =
        listWithFlags nowIso raw arch := by
  have hset : setDelete (setAdd arch k) k = arch := by
    simp only [setAdd, setDelete, if_neg h]
    rw [List.erase_append_right _ h]
    simp
  exact ⟨hset, by rw [hset]⟩

/-- Witness for the amended C9: a concrete round trip on a state where
`k1` is not archived restores the flags, through
`archive_unarchive_round_trip`. -/
theorem archive_unarchive_round_trip_witness :
    listWithFlags "2026-01-01" rawC9 (setDelete (setAdd ["other"] "k1") "k1") =
      listWithFlags "2026-01-01" rawC9 ["other"] :=
  (archive_unarchive_round_trip "2026-01-01" rawC9 ["other"] "k1" (by decide)).2

/-- Counterexample to C5: on a fresh session manager, the PATCH handler
path `archive(T,"x")` records an archive flag for `x` although the
manager's cache knows no session `x` for that token. -/
theorem c5_flag_for_unknown_session :
    "x" ∈ (runSm [.archiveOp "x"]).archiveKeys
    ∧ "x" ∉ (runSm [.archiveOp "x"]).cacheKeys := by
  decide

lemma runSm_archive_sources (ops : List SmOp) :
    ∀ st k, k ∈ (ops.foldl applySmOp st).archiveKeys →
      k ∈ st.archiveKeys ∨ k ∈ archivedRequested ops := by
  induction ops with
  | nil => intro st k h; exact Or.inl h
  | cons op rest ih =>
    intro st k h
    rcases ih (applySmOp st op) k h with hmem | hreq
    · cases op with
      | archiveOp k2 =>
        by_cases hk : k = k2
        · exact Or.inr (by simp [archivedRequested, hk])
        · left
          simp only [applySmOp, setAdd] at hmem
          split at hmem
          · exact hmem
          · rcases List.mem_append.mp hmem with h1 | h1
            · exact h1
            · simp at h1; exact absurd h1 hk
      | unarchiveOp k2 => exact Or.inl (List.mem_of_mem_erase hmem)
      | closeOp k2 => exact Or.inl (List.mem_of_mem_erase hmem)
      | createOp k2 => exact Or.inl hmem
      | deleteOp k2 => exact Or.inl hmem
      | renameOp k2 => exact Or.inl hmem
    · right
      cases op with
      | archiveOp k2 => exact List.mem_cons_of_mem _ hreq
      | createOp k2 => exact hreq
      | unarchiveOp k2 => exact hreq
      | closeOp k2 => exact hreq
      | deleteOp k2 => exact hreq
      | renameOp k2 => exact hreq

/-- C5 as amended: `archive` records the key unconditionally, without
consulting the session cache, so an archive flag may exist for a key the
manager does not know; what does hold is that every archive flag was
recorded by some `archive(T,K)` call of the operation history (flags
never appear spontaneously). -/
theorem archive_flags_only_from_archive_calls (ops : List SmOp) (k : String)
    (h : k ∈ (runSm ops).archiveKeys) : k ∈ archivedRequested ops := by
  rcases runSm_archive_sources ops initSm k h with hmem | req
  · simp [initSm] at hmem
  · exact req

/-- Witness for the amended C5: in a concrete history the flag for `y`
traces back to its `archive` call, through
`archive_flags_only_from_archive_calls`. -/
theorem archive_flags_witness :
    "y" ∈ archivedRequested [.createOp "z", .archiveOp "y"] :=
  archive_flags_only_from_archive_calls [.createOp "z", .archiveOp "y"] "y" (by decide)

/-- Counterexample to C1: with a fresh connected pool entry, an upstream
response whose `error.code` is `UNAUTHORIZED` yields HTTP 401 with code
`UNAUTHORIZED` — but the pool state is unchanged, and the next
`getConnection` for the token returns the same client with the
handshake counter untouched: the entry is not invalidated and no new
connect handshake happens. -/
theorem c1_pool_survives_auth_error :
    endpointRequest 1000 (.ok ()) ⟨some ⟨0, 1000, true⟩, 1, 1⟩
        { type? := some "res", id? := some "req_1",
          error? := some ⟨.str "UNAUTHORIZED", "token expired"⟩ }
      = (.errReply 401 "UNAUTHORIZED", ⟨some ⟨0, 1000, true⟩, 1, 1⟩)
    ∧ getConnection 1000 (.ok ()) ⟨some ⟨0, 1000, true⟩, 1, 1⟩
      = (.ok 0, ⟨some ⟨0, 1000, true⟩, 1, 1⟩) :=
  ⟨rfl, rfl⟩

/-- C1 as amended: an upstream RPC response with an auth-class error
code makes the authenticated endpoint reply 401 `UNAUTHORIZED`, but the
pool entry for the token is not invalidated by that response: the state
is unchanged and, while the entry stays fresh and connected, the next
request reuses the same client without a new connect handshake (the
entry only falls out via WS disconnect, TTL expiry, connect failure or
an explicit close). -/
theorem auth_rpc_error_gives_401_pool_kept (now : Nat)
    (hs : Except GatewayErrorM Unit) (st : BridgeSt) (e : PoolEntryM) (m : FrameM)
    (errObj : ErrObjM) (hentry : st.entry? = some e)
    (hfresh : now - e.createdAt < CONNECTION_TTL_MS) (hconn : e.connected = true)
    (herr : m.error? = some errObj) (hauth : isAuthErrorCode errObj.code = true) :
    endpointRequest now hs st m = (.errReply 401 "UNAUTHORIZED", st)
    ∧ getConnection now hs st = (.ok e.clientId, st) := by
  have hget : getConnection now hs st = (.ok e.clientId, st) := by
    simp [getConnection, hentry, hfresh, hconn]
  have hres : resHandler m = .rejected ⟨.UNAUTHORIZED, some errObj⟩ := by
    simp [resHandler, respHasError, herr, hauth]
  refine ⟨?_, hget⟩
  simp [endpointRequest, hget, hres, handleGatewayError]

/-- Witness for the amended C1: a concrete auth-class response yields
the 401 reply and leaves the pool untouched, through
`auth_rpc_error_gives_401_pool_kept`. -/
theorem auth_rpc_error_witness :
    endpointRequest 5000 (.ok ()) ⟨some ⟨3, 4900, true⟩, 4, 2⟩
        { error? := some ⟨.str "FORBIDDEN", "nope"⟩ }
      = (.errReply 401 "UNAUTHORIZED", ⟨some ⟨3, 4900, true⟩, 4, 2⟩) :=
  (auth_rpc_error_gives_401_pool_kept 5000 (.ok ()) ⟨some ⟨3, 4900, true⟩, 4, 2⟩
    ⟨3, 4900, true⟩ { error? := some ⟨.str "FORBIDDEN", "nope"⟩ }
    ⟨.str "FORBIDDEN", "nope"⟩ rfl (by decide) rfl rfl rfl).1

lemma initConc_inv (n : Nat) : ConcInv n (initConc n) := by
  refine ⟨by simp [initConc], fun _ => rfl, ?_, ?_⟩
  · intro c hc; simp [initConc] at hc
  · intro st hst c hc
    have := List.eq_of_mem_replicate hst
    subst this
    rcases hc with hc | hc <;> simp at hc

lemma concStep_inv {n : Nat} {s s2 : ConcSt} (h : ConcStep s s2) (hinv : ConcInv n s) :
    ConcInv n s2 := by
  obtain ⟨hlen, hnone, hsome, hcall⟩ := hinv
  cases h with
  | joinEntry i c hi hp =>
    refine ⟨by simpa using hlen, hnone, hsome, ?_⟩
    intro st hst c2 hc
    rcases List.mem_or_eq_of_mem_set hst with hmem | heq
    · exact hcall st hmem c2 hc
    · subst heq
      rcases hc with hc | hc
      · simp only [CallerSt.waiting.injEq] at hc
        rw [← hc]; exact hp
      · simp at hc
  | createEntry i hi hp =>
    have hc0 : s.created = 0 := hnone hp
    refine ⟨by simpa using hlen, by intro h0; simp at h0, ?_, ?_⟩
    · intro c hc
      simp only at hc
      constructor
      · rw [← Option.some_inj.mp hc, hc0]
      · simp [hc0]
    · intro st hst c2 hc
      rcases List.mem_or_eq_of_mem_set hst with hmem | heq
      · have := hcall st hmem c2 hc
        rw [hp] at this
        exact absurd this (by simp)
      · subst heq
        rcases hc with hc | hc
        · simp only [CallerSt.waiting.injEq] at hc
          simp [← hc]
        · simp at hc
  | handshakeDone h0 =>
    exact ⟨hlen, hnone, hsome, hcall⟩
  | finishCaller i c hi hd =>
    refine ⟨by simpa using hlen, hnone, hsome, ?_⟩
    intro st hst c2 hc
    rcases List.mem_or_eq_of_mem_set hst with hmem | heq
    · exact hcall st hmem c2 hc
    · subst heq
      have hwmem : CallerSt.waiting c ∈ s.callers := List.get?_mem hi
      have hpool : s.pool = some c := hcall _ hwmem c (Or.inl rfl)
      rcases hc with hc | hc
      · simp at hc
      · simp only [CallerSt.resolved.injEq] at hc
        rw [← hc]; exact hpool

lemma concReach_inv {n : Nat} {s : ConcSt}
    (h : Relation.ReflTransGen ConcStep (initConc n) s) : ConcInv n s := by
  induction h with
  | refl => exact initConc_inv n
  | tail hsteps hstep ih => exact concStep_inv hstep ih

/-- C6: in every interleaving of N concurrent `getConnection(T)` calls
starting from an empty pool (the claim scenario: shared handshake
succeeds, no TTL expiry), once all callers have resolved, exactly one
client was created — hence exactly one WebSocket opened and exactly one
connect handshake sent — and every caller resolved with that same
client. -/
theorem pool_single_client_under_concurrency (n : Nat) (hn : 0 < n) (s : ConcSt)
    (hreach : Relation.ReflTransGen ConcStep (initConc n) s)
    (hdone : ∀ st ∈ s.callers, ∃ c, st = CallerSt.resolved c) :
    s.created = 1 ∧ ∀ st ∈ s.callers, st = CallerSt.resolved 0 := by
  obtain ⟨hlen, hnone, hsome, hcall⟩ := concReach_inv hreach
  have hne : s.callers ≠ [] := by
    intro h0
    rw [h0] at hlen
    simp at hlen
    omega
  obtain ⟨st0, hst0⟩ := List.exists_mem_of_ne_nil s.callers hne
  obtain ⟨c0, hc0⟩ := hdone st0 hst0
  have hpool0 : s.pool = some c0 := hcall st0 hst0 c0 (Or.inr hc0)
  obtain ⟨hc0z, hcreated⟩ := hsome c0 hpool0
  refine ⟨hcreated, ?_⟩
  intro st hst
  obtain ⟨c, hc⟩ := hdone st hst
  have hpool : s.pool = some c := hcall st hst c (Or.inr hc)
  have hcz := (hsome c hpool).1
  rw [hc, hcz]

/-- Witness for C6: a concrete three-step interleaving of one caller —
create-and-insert, handshake completion, caller resolution — ends with
one created client and the caller resolved with it, through
`pool_single_client_under_concurrency`. -/
theorem pool_single_client_witness :
    (⟨some 0, 1, true, [CallerSt.resolved 0]⟩ : ConcSt).created = 1
    ∧ ∀ st ∈ (⟨some 0, 1, true, [CallerSt.resolved 0]⟩ : ConcSt).callers,
        st = CallerSt.resolved 0 := by
  have h1 : ConcStep (initConc 1) ⟨some 0, 1, false, [CallerSt.waiting 0]⟩ :=
    ConcStep.createEntry (initConc 1) 0 rfl rfl
  have h2 : ConcStep (⟨some 0, 1, false, [CallerSt.waiting 0]⟩ : ConcSt)
      ⟨some 0, 1, true, [CallerSt.waiting 0]⟩ :=
    ConcStep.handshakeDone _ rfl
  have h3 : ConcStep (⟨some 0, 1, true, [CallerSt.waiting 0]⟩ : ConcSt)
      ⟨some 0, 1, true, [CallerSt.resolved 0]⟩ :=
    ConcStep.finishCaller _ 0 0 rfl rfl
  have hreach : Relation.ReflTransGen ConcStep (initConc 1)
      ⟨some 0, 1, true, [CallerSt.resolved 0]⟩ :=
    Relation.ReflTransGen.tail
      (Relation.ReflTransGen.tail (Relation.ReflTransGen.single h1) h2) h3
  refine pool_single_client_under_concurrency 1 (by decide) _ hreach ?_
  intro st hst
  simp only [List.mem_singleton] at hst
  exact ⟨0, hst⟩

lemma stepStream_frame_count (target : String) (st : StreamSt) (ev : EvFrameM) :
    countDone (stepStream target st (.frame ev)).buffer
      = countDone st.buffer + (if isFinalFor target ev then 1 else 0)
    ∧ (stepStream target st (.frame ev)).done = (st.done || isFinalFor target ev) := by
  by_cases hskip : frameSkipped target ev
  · simp [stepStream, isFinalFor, hskip]
  · simp only [Bool.not_eq_true] at hskip
    by_cases hagent : frameName ev = "agent"
    · have hfin : isFinalFor target ev = false := by
        simp [isFinalFor, hagent]
      simp only [stepStream, hskip, Bool.false_eq_true, reduceIte, hagent, hfin]
      split
      · simp [countDone, List.countP_append]
      · simp
    · by_cases hchat : frameName ev = "chat"
      · by_cases hfin : (framePayload ev).state? == some "final"
        · have hisf : isFinalFor target ev = true := by
            simp [isFinalFor, hskip, hchat, hfin]
          simp [stepStream, hskip, hagent, hchat, hfin, hisf, countDone,
            List.countP_append]
        · have hisf : isFinalFor target ev = false := by
            simp only [Bool.not_eq_true] at hfin
            simp [isFinalFor, hfin]
          simp [stepStream, hskip, hagent, hchat, hfin, hisf]
      · have hisf : isFinalFor target ev = false := by
          simp [isFinalFor, hchat]
        simp [stepStream, hskip, hagent, hchat, hisf]

lemma countDone_append_doneEv (b : List StreamEv) (d : DoneSrc) :
    countDone (b ++ [.doneEv d]) = countDone b + 1 := by
  simp [countDone, List.countP_append, List.countP_cons]

lemma countFinal_cons_frame (target : String) (ev : EvFrameM) (rest : List StreamAct) :
    countFinal target (.frame ev :: rest)
      = countFinal target rest + (if isFinalFor target ev then 1 else 0) := by
  simp [countFinal, List.countP_cons]

lemma countFinal_cons_rpcOk (target : String) (v : Val) (rest : List StreamAct) :
    countFinal target (.rpcOk v :: rest) = countFinal target rest := by
  simp [countFinal, List.countP_cons]

lemma countFinal_cons_rpcErr (target : String) (rest : List StreamAct) :
    countFinal target (.rpcErr :: rest) = countFinal target rest := by
  simp [countFinal, List.countP_cons]

lemma runStream_accounting (target : String) :
    ∀ (acts : List StreamAct) (st : StreamSt),
      countDone ((acts.foldl (stepStream target) st).buffer)
        = countDone st.buffer + countFinal target acts
            + rpcDoneContrib target st.done acts
      ∧ (acts.foldl (stepStream target) st).done
        = (st.done || acts.any (actCompletes target)) := by
  intro acts
  induction acts with
  | nil =>
    intro st
    simp [countFinal, rpcDoneContrib]
  | cons a rest ih =>
    intro st
    cases a with
    | frame ev =>
      obtain ⟨hc, hd⟩ := stepStream_frame_count target st ev
      obtain ⟨ihc, ihd⟩ := ih (stepStream target st (.frame ev))
      constructor
      · rw [List.foldl_cons, ihc, hc, hd, countFinal_cons_frame]
        show _ = _ + _ + rpcDoneContrib target (st.done || isFinalFor target ev) rest
        omega
      · rw [List.foldl_cons, ihd, hd, List.any_cons]
        show _ = (st.done || (isFinalFor target ev || rest.any (actCompletes target)))
        rw [Bool.or_assoc]
    | rpcOk v =>
      by_cases hdone : st.done
      · have hstep : stepStream target st (.rpcOk v) = st := by
          simp [stepStream, hdone]
        obtain ⟨ihc, ihd⟩ := ih st
        constructor
        · rw [List.foldl_cons, hstep, ihc, countFinal_cons_rpcOk]
          show _ = _ + _ + ((if st.done then 0 else 1) + rpcDoneContrib target true rest)
          rw [hdone]
          simp only [reduceIte, Nat.zero_add]
        · rw [List.foldl_cons, hstep, ihd, List.any_cons]
          simp [actCompletes, hdone]
      · simp only [Bool.not_eq_true] at hdone
        have hstep : stepStream target st (.rpcOk v)
            = { st with buffer := st.buffer ++ [.doneEv (.fromRpc v)], done := true } := by
          simp [stepStream, hdone]
        obtain ⟨ihc, ihd⟩ :=
          ih { st with buffer := st.buffer ++ [.doneEv (.fromRpc v)], done := true }
        constructor
        · rw [List.foldl_cons, hstep, ihc]
          dsimp only
          rw [countDone_append_doneEv, countFinal_cons_rpcOk]
          show _ = _ + _ + ((if st.done then 0 else 1) + rpcDoneContrib target true rest)
          rw [hdone]
          simp only [Bool.false_eq_true, reduceIte]
          omega
        · rw [List.foldl_cons, hstep, ihd, List.any_cons]
          simp [actCompletes, hdone]
    | rpcErr =>
      have hstep : stepStream target st .rpcErr
          = { st with done := true, errored := true } := rfl
      obtain ⟨ihc, ihd⟩ := ih { st with done := true, errored := true }
      constructor
      · rw [List.foldl_cons, hstep, ihc, countFinal_cons_rpcErr]
        dsimp only
        show _ = _ + _ + rpcDoneContrib target true rest
        omega
      · rw [List.foldl_cons, hstep, ihd, List.any_cons]
        simp [actCompletes]

/-- Counterexample to C8: two matching `chat final` frames each push
their own completion (the final branch never checks the `done` flag), so
the emitted sequence of this run contains two `Done` events — a
duplicate completion. -/
theorem c8_two_finals_two_done_events :
    countDone (runStream "s1" [.frame finalFrame, .frame finalFrame]).buffer = 2 := by
  rfl

/-- C8 as amended: the `done` events of a `sendStream` run are exactly
one per matching `chat final` frame plus the RPC-synthesized one, and
the latter is counted (and pushed) only when the `done` flag is still
unset when the RPC resolves; in particular, once a `chat final` frame
has marked the stream done, the RPC result contributes nothing — the run
is literally identical to the run without the RPC resolution.  Duplicate
completions thus never come from the RPC result, but they do occur when
more than one matching final frame arrives (or a final frame arrives
after the RPC resolved). -/
theorem sendStream_done_accounting (target : String) (acts : List StreamAct) :
    countDone (runStream target acts).buffer
      = countFinal target acts + rpcDoneContrib target false acts
    ∧ (∀ v pre post, acts = pre ++ .rpcOk v :: post →
        containsFinal target pre = true →
        runStream target acts = runStream target (pre ++ post)) := by
  constructor
  · have h := (runStream_accounting target acts ⟨[], false, false⟩).1
    simpa [runStream, countDone] using h
  · intro v pre post hacts hfin
    subst hacts
    have hdone : (pre.foldl (stepStream target) ⟨[], false, false⟩).done = true := by
      rw [(runStream_accounting target pre ⟨[], false, false⟩).2]
      simp only [Bool.false_or, List.any_eq_true]
      rw [containsFinal, List.any_eq_true] at hfin
      obtain ⟨a, ha, hp⟩ := hfin
      refine ⟨a, ha, ?_⟩
      cases a with
      | frame ev => exact hp
      | rpcOk v => simp [actCompletes]
      | rpcErr => simp [actCompletes]
    simp only [runStream, List.foldl_append, List.foldl_cons]
    congr 1
    simp [stepStream, hdone]

/-- Witness for the amended C8: in a concrete run where the `chat final`
frame precedes the RPC resolution, the RPC contributes nothing — the
run equals the one without it — through `sendStream_done_accounting`. -/
theorem sendStream_done_witness :
    runStream "s1" [.frame finalFrame, .rpcOk (Val.str "r")]
      = runStream "s1" [.frame finalFrame] :=
  (sendStream_done_accounting "s1" [.frame finalFrame, .rpcOk (Val.str "r")]).2
    (Val.str "r") [.frame finalFrame] [] rfl rfl

end OpenClawBridge
